import Mathlib

/-!
Shallow embedding of the extraction–normalization–aggregation pipeline of
`scheduled-google-sheets-reporter.js` (class `GoogleSheetsPivotReporterOAuth`,
methods `fetchAllSheetsData` and the data-shaping part of
`generateHTMLReport`), together with theorems settling the specification
claims about it.

A sheet grid is a list of rows, a row a list of cell strings; a JS array
read out of range (`row[i]` undefined, or `row[-1]`) coerced with `|| ''`
becomes the empty string.  JS column indices that can be `-1` are modelled
as `Option Nat`.  String primitives (`trim`, `toLowerCase`, `includes`) are
modelled on character lists so that everything evaluates by kernel
reduction.
-/

namespace Report

/-- JS `String.prototype.trim`: drop leading and trailing whitespace. -/
def jsTrim (s : String) : String :=
  String.mk (((s.toList.dropWhile Char.isWhitespace).reverse.dropWhile
    Char.isWhitespace).reverse)

/-- JS `String.prototype.toLowerCase` (ASCII case mapping). -/
def jsLower (s : String) : String :=
  String.mk (s.toList.map Char.toLower)

/-- Substring test on character lists: does `pat` occur inside `l`?
Mirrors JS `String.prototype.includes`. -/
def hasSub (l pat : List Char) : Bool :=
  match l with
  | [] => pat.isEmpty
  | _ :: rest => pat.isPrefixOf l || hasSub rest pat

/-- Case-insensitive substring test, mirroring
`cell.toLowerCase().includes(pat)` for an already-lowercase `pat`. -/
def ciContains (cell pat : String) : Bool :=
  hasSub (cell.toList.map Char.toLower) pat.toList

/-- `row[i] || ''` for a JS index that may be `-1` (`none`):
out-of-range or absent cells read as the empty string. -/
def getCell (row : List String) : Option Nat → String
  | none => ""
  | some i => (row.get? i).getD ""

/-- A canonical normalized record, one per kept data row
(`allData.push({...})` in `fetchAllSheetsData`). -/
structure Record where
  tester : String
  jiraTicket : String
  iteration : String
  overallStatus : String
  defect : String
  comments : String
deriving DecidableEq, Repr

/-- Per-sheet diagnostic summary (`this.sheetSummaries` entries). -/
structure SheetSummary where
  name : String
  rowCount : Nat
  headerFound : Bool
deriving DecidableEq, Repr

/-- `rows.findIndex(row => row.some(cell => cell && cell.toLowerCase().includes('tester')))`:
the header row is the first row with a cell containing "tester". -/
def findHeaderIdx (rows : List (List String)) : Option Nat :=
  rows.findIdx? (fun row => row.any (fun c => ciContains c "tester"))

/-- `header.findIndex(cell => cell && cell.toLowerCase().includes(label))`,
`none` standing for JS `-1`. -/
def colIdx (header : List String) (label : String) : Option Nat :=
  header.findIdx? (fun c => ciContains c label)

/-- Does the `itr[- ]?` pattern match at the head of `l` (the "itr" letters
alone suffice; the separator is optional)? -/
def itrHeadMatch (l : List Char) : Bool :=
  match l with
  | a :: b :: c :: _ => a.toLower = 'i' && b.toLower = 't' && c.toLower = 'r'
  | _ => false

/-- Given that `itr[- ]?` matches at the head of `l`, the remainder after
removing the matched text ("itr" plus an optional `-`/space, the separator
taken greedily as the regex does). -/
def dropItrHere (l : List Char) : List Char :=
  match l.drop 3 with
  | [] => []
  | d :: rest2 => if d = '-' || d = ' ' then rest2 else d :: rest2

/-- `str.replace(/itr[- ]?/i, '')`: scan left to right for the first
position where `itr[- ]?` matches, remove the matched text there, and keep
everything else; leave the string unchanged when there is no match. -/
def stripItr : List Char → List Char
  | [] => []
  | a :: t => if itrHeadMatch (a :: t) then dropItrHere (a :: t) else a :: stripItr t

/-- The attempt of `/(itr[- ]?\d+)/i` at one fixed position: "itr", then an
optional `-`/space separator, then a maximal nonempty digit run (regex
backtracking drops the separator only if digits follow directly; a consumed
separator that is not followed by a digit can never be rescued because the
separator itself is not a digit). -/
def itrNumAt (l : List Char) : Option (List Char) :=
  match l with
  | a :: b :: c :: rest =>
    if a.toLower = 'i' && b.toLower = 't' && c.toLower = 'r' then
      match rest with
      | [] => none
      | d :: rest2 =>
        if d = '-' || d = ' ' then
          let digits := rest2.takeWhile Char.isDigit
          if digits.isEmpty then none
          else some (a :: b :: c :: d :: digits)
        else
          let digits := (d :: rest2).takeWhile Char.isDigit
          if digits.isEmpty then none
          else some (a :: b :: c :: digits)
    else none
  | _ => none

/-- `sheetName.match(/(itr[- ]?\d+)/i)`: the leftmost match, if any. -/
def itrScan : List Char → Option (List Char)
  | [] => none
  | c :: cs =>
    match itrNumAt (c :: cs) with
    | some m => some m
    | none => itrScan cs

/-- Modelled from the claim's words, for comparison with the code: strip
"itr" plus an optional `-`/space only as a LEADING prefix of the value
(case-insensitive), then trim surrounding whitespace. -/
def specLeadingItrStrip (s : String) : String :=
  jsTrim (String.mk (if itrHeadMatch s.toList then dropItrHere s.toList else s.toList))

/-- Modelled from the amended claim's words: strip the FIRST occurrence of
"itr" plus an optional `-`/space anywhere in the value (leftmost position,
case-insensitive), then trim surrounding whitespace. -/
def specStripAnywhere (s : String) : String :=
  match (List.range s.toList.length).find? (fun i => itrHeadMatch (s.toList.drop i)) with
  | none => jsTrim s
  | some i => jsTrim (String.mk (s.toList.take i ++ dropItrHere (s.toList.drop i)))

/-- The raw iteration value before stripping (lines 198–204): the iteration
cell when the column exists, else the `(itr[- ]?\d+)` token matched in the
sheet name (empty when nothing matches). -/
def rawIterOf (sheetName : String) (iIdx : Option Nat) (row : List String) : String :=
  match iIdx with
  | some i => getCell row (some i)
  | none =>
    match itrScan sheetName.toList with
    | some m => String.mk m
    | none => ""

/-- The body of the data-row loop in `fetchAllSheetsData` (lines 185–208):
skip blank-tester rows, default blank status to "Not Started", read
defect/comments, resolve the iteration label from the column or the sheet
name and strip the "itr" prefix form from it. -/
def processRow (sheetName : String) (tIdx sIdx dIdx cIdx iIdx : Option Nat)
    (row : List String) : Option Record :=
  let tester := getCell row tIdx
  let rawStatus := getCell row sIdx
  let status := if jsTrim rawStatus = "" then "Not Started" else jsTrim rawStatus
  if jsTrim tester = "" then none
  else
    let defect := getCell row dIdx
    let comments := getCell row cIdx
    let iteration := jsTrim (String.mk (stripItr (rawIterOf sheetName iIdx row).toList))
    some ⟨tester, sheetName, iteration, status, defect, comments⟩

/-- The records one (non-index) sheet contributes to `allData`. -/
def sheetRecords (sheetName : String) (rows : List (List String)) : List Record :=
  match findHeaderIdx rows with
  | none => []
  | some hIdx =>
    let header := (rows.get? hIdx).getD []
    (rows.drop (hIdx + 1)).filterMap
      (processRow sheetName (colIdx header "tester") (colIdx header "overall status")
        (colIdx header "defect") (colIdx header "comment") (colIdx header "iteration"))

/-- The summary one (non-index) sheet pushes onto `this.sheetSummaries`:
count 0 / header-not-found when the sheet is empty or no row qualifies as
header, else `rows.length - headerRowIdx - 1`. -/
def sheetSummary (sheetName : String) (rows : List (List String)) : SheetSummary :=
  match findHeaderIdx rows with
  | none => ⟨sheetName, 0, false⟩
  | some hIdx => ⟨sheetName, rows.length - hIdx - 1, true⟩

/-- `this.allData` after `fetchAllSheetsData`: every sheet except the one
named "index" (case-insensitively) contributes its records, in sheet order. -/
def allRecords (sheets : List (String × List (List String))) : List Record :=
  (sheets.filter (fun p => jsLower p.1 != "index")).flatMap
    (fun p => sheetRecords p.1 p.2)

/-- `this.sheetSummaries` after `fetchAllSheetsData`: one summary per
non-index sheet, in sheet order (the index sheet returns early and never
pushes a summary). -/
def allSummaries (sheets : List (String × List (List String))) : List SheetSummary :=
  (sheets.filter (fun p => jsLower p.1 != "index")).map
    (fun p => sheetSummary p.1 p.2)

/-- `this.indexSheetRows`: the grid of the last sheet named "index" having
more than one row, if any (each such sheet overwrites the field). -/
def indexSheetRows (sheets : List (String × List (List String))) :
    Option (List (List String)) :=
  ((sheets.filter (fun p => jsLower p.1 == "index" && p.2.length > 1)).getLast?).map
    Prod.snd

/-! ### Aggregation (`generateHTMLReport`, data-shaping part) -/

/-- The fixed canonical status priority list (`statusOrder`). -/
def statusOrder : List String :=
  ["Passed", "Failed", "Blocked", "In Progress", "Not Started"]

/-- Insertion into a JS `Set` (or a push guarded by `includes`): append the
element unless already present.  Keeps first-seen order. -/
def setAdd (acc : List String) (s : String) : List String :=
  if s ∈ acc then acc else acc ++ [s]

/-- The contents of a JS `Set` built by inserting the elements of `l` in
order: the distinct elements of `l` in first-seen order. -/
def firstSeen (l : List String) : List String :=
  l.foldl setAdd []

/-- Lines 227–229: `statusSet` is the set of (truthy) statuses in row
order; `statusList` starts as `statusOrder` filtered to members of the set
and every remaining set element is pushed in set (= first-seen) order. -/
def statusList (records : List Record) : List String :=
  let statusSet := firstSeen ((records.map Record.overallStatus).filter
    (fun s => decide (s ≠ "")))
  statusSet.foldl setAdd (statusOrder.filter (fun s => decide (s ∈ statusSet)))

/-- One tester's accumulator in `grouped`: ordered rows, status→count
object, and ticket→iteration-label `Map` of `Set`s (all insertion-ordered,
modelled as association lists). -/
structure TesterGroup where
  tester : String
  rows : List Record
  statusCounts : List (String × Nat)
  ticketIterations : List (String × List String)
deriving DecidableEq, Repr

/-- `m[k] = (m[k] || 0) + 1` on an insertion-ordered JS object. -/
def bump (m : List (String × Nat)) (k : String) : List (String × Nat) :=
  match m with
  | [] => [(k, 1)]
  | (k', v) :: rest => if k' = k then (k', v + 1) :: rest else (k', v) :: bump rest k

/-- Insertion-ordered association-list lookup (JS `obj[k]` / `map.get(k)`). -/
def lookupA {α : Type} (m : List (String × α)) (k : String) : Option α :=
  match m with
  | [] => none
  | (k', v) :: rest => if k' = k then some v else lookupA rest k

/-- Lines 247–250: ensure the ticket has a `Set`, then `add` the label. -/
def addIterLab (m : List (String × List String)) (ticket lab : String) :
    List (String × List String) :=
  match m with
  | [] => [(ticket, [lab])]
  | (t, s) :: rest =>
    if t = ticket then (t, setAdd s lab) :: rest
    else (t, s) :: addIterLab rest ticket lab

/-- `row.iteration || '1'`: the label stored in the per-ticket set. -/
def labOf (r : Record) : String :=
  if r.iteration = "" then "1" else r.iteration

/-- The per-record update of one tester's group (lines 242–250). -/
def addToGroup (g : TesterGroup) (r : Record) : TesterGroup :=
  { g with
    rows := g.rows ++ [r]
    statusCounts := bump g.statusCounts r.overallStatus
    ticketIterations := addIterLab g.ticketIterations r.jiraTicket (labOf r) }

/-- Route a record to the group keyed `key`, creating the empty group on
first sight (JS `if (!grouped[key]) grouped[key] = {...}`). -/
def insertRec (groups : List TesterGroup) (key : String) (r : Record) :
    List TesterGroup :=
  match groups with
  | [] => [addToGroup ⟨key, [], [], []⟩ r]
  | g :: rest =>
    if g.tester = key then addToGroup g r :: rest else g :: insertRec rest key r

/-- One step of the grouping loop (lines 233–235): compute the trimmed
tester key, defensively re-skip a blank key, else route the record. -/
def groupStep (groups : List TesterGroup) (r : Record) : List TesterGroup :=
  let key := jsTrim r.tester
  if key = "" then groups else insertRec groups key r

/-- Lines 232–251: group all records by trimmed tester. -/
def groupRecords (records : List Record) : List TesterGroup :=
  records.foldl groupStep []

/-- One row of the `data` array handed to the renderer (lines 256–274). -/
structure TesterData where
  testerName : String
  statusCounts : List Nat
  total : Nat
  uniqueTicketCount : Nat
  ticketDetails : List (String × Nat)
deriving DecidableEq, Repr

/-- Lines 256–274: per-tester presentation data built from the group. -/
def testerData (slist : List String) (g : TesterGroup) : TesterData :=
  ⟨g.tester,
   slist.map (fun s => (lookupA g.statusCounts s).getD 0),
   g.rows.length,
   g.ticketIterations.length,
   g.ticketIterations.map (fun p => (p.1, p.2.length))⟩

/-- Lookup of a tester's group in the grouping accumulator (the JS object
access `grouped[key]`). -/
def lookupG (groups : List TesterGroup) (t : String) : Option TesterGroup :=
  match groups with
  | [] => none
  | g :: rest => if g.tester = t then some g else lookupG rest t

/-- The records whose trimmed tester is `t`, in input order. -/
def recsOf (records : List Record) (t : String) : List Record :=
  records.filter (fun r => decide (jsTrim r.tester = t))

/-- Folding a record list into a status→count object, from a given start. -/
def buildSC (m : List (String × Nat)) (rs : List Record) : List (String × Nat) :=
  rs.foldl (fun m r => bump m r.overallStatus) m

/-- Folding a record list into a ticket→iteration-label-set map, from a
given start. -/
def buildTI (m : List (String × List String)) (rs : List Record) :
    List (String × List String) :=
  rs.foldl (fun m r => addIterLab m r.jiraTicket (labOf r)) m

/-- Extending a tester group by a batch of its records. -/
def extendG (g : TesterGroup) (rs : List Record) : TesterGroup :=
  ⟨g.tester, g.rows ++ rs, buildSC g.statusCounts rs, buildTI g.ticketIterations rs⟩

/-- The iteration labels (empty mapped to "1") of the records of ticket `k`
within `rs`, in input order. -/
def labsOf (rs : List Record) (k : String) : List String :=
  (rs.filter (fun r => decide (r.jiraTicket = k))).map labOf

/-! ### Index sheet parsing (lines 277–298) -/

/-- Result of parsing `this.indexSheetRows`. -/
structure IndexModel where
  testScenarioIdx : Nat
  testExecutionIdx : Nat
  testStoryIdx : Nat
  descIdx : Nat
  statusIdx : Nat
  bodyRows : List (List String)
  statusCountsMap : List (String × Nat)
deriving DecidableEq, Repr

/-- `header.forEach((cell, i) => { if (lc.includes(label)) idx = i })`
starting from the positional default: the LAST matching column wins. -/
def lastMatchIdx (header : List String) (label : String) (dflt : Nat) : Nat :=
  header.enum.foldl (fun acc p => if ciContains p.2 label then p.1 else acc) dflt

/-- The status tally step (lines 293–298): bump the raw status cell value
if it is non-blank after trimming. -/
def tallyRow (sIdx : Nat) (m : List (String × Nat)) (row : List String) :
    List (String × Nat) :=
  let status := getCell row (some sIdx)
  if jsTrim status ≠ "" then bump m status else m

/-- Lines 277–298: column resolution with positional fallbacks `(0,1,3,2,4)`,
body rows = non-empty rows after the header, and the status tally. -/
def parseIndex (rows : List (List String)) : IndexModel :=
  let header := (rows.get? 0).getD []
  let bodyRows := (rows.drop 1).filter (fun row => row.any (fun c => c != ""))
  let sIdx := lastMatchIdx header "status" 4
  { testScenarioIdx := lastMatchIdx header "test scenario" 0
    testExecutionIdx := lastMatchIdx header "test execution" 1
    testStoryIdx := lastMatchIdx header "test story" 3
    descIdx := lastMatchIdx header "description" 2
    statusIdx := sIdx
    bodyRows := bodyRows
    statusCountsMap := bodyRows.foldl (tallyRow sIdx) [] }

/-! ### Global status distribution (line 354 and lines 700–715) -/

/-- Line 354: `statusCounts = statusList.map(status =>
this.allData.filter(row => row.overallStatus === status).length)`. -/
def globalStatusCounts (records : List Record) (slist : List String) : List Nat :=
  slist.map (fun s => (records.filter (fun r => decide (r.overallStatus = s))).length)

/-- The global status counts of a record set, in display order. -/
def gCounts (records : List Record) : List Nat :=
  globalStatusCounts records (statusList records)

/-- `total = statusCounts.reduce((a, b) => a + b, 0)`. -/
def gTotal (records : List Record) : Nat :=
  (gCounts records).sum

/-- Rounding a rational to one decimal place, as `toFixed(1)` does on its
exact argument (nearest, ties up). -/
def roundTenth (q : ℚ) : ℚ :=
  (round (10 * q) : ℤ) / 10

/-- Line 703: `total > 0 ? ((count / total) * 100).toFixed(1) : 0`, the
numeric division idealized as exact rational arithmetic. -/
def percentOneDecimal (count total : Nat) : ℚ :=
  if 0 < total then roundTenth ((count : ℚ) / (total : ℚ) * 100) else 0

end Report

section Scratch
open Report

example : sheetRecords "NR-101"
    [["Tester", "Overall Status", "Defect"], ["Alice", "Failed", "BUG-1"]] =
    [⟨"Alice", "NR-101", "", "Failed", "BUG-1", ""⟩] := by decide

example : sheetRecords "NR-100"
    [["Tester", "Overall Status"], ["Alice", ""]] =
    [⟨"Alice", "NR-100", "", "Not Started", "", ""⟩] := by decide

example : sheetRecords "ITR-7 Checkout"
    [["Tester"], ["Alice"]] =
    [⟨"Alice", "ITR-7 Checkout", "7", "Not Started", "", ""⟩] := by decide

example : sheetRecords "S"
    [["Tester", "Iteration"], ["Alice", "itr 4"]] =
    [⟨"Alice", "S", "4", "Not Started", "", ""⟩] := by decide

example : sheetRecords "S"
    [["Tester", "Iteration"], ["Alice", "QA itr-5"]] =
    [⟨"Alice", "S", "QA 5", "Not Started", "", ""⟩] := by decide

example : sheetRecords "S" [["Tester"], [""]] = [] := by decide

example : sheetSummary "S" [["Tester"], [""]] = ⟨"S", 1, true⟩ := by decide

example : jsTrim (String.mk (stripItr "Iteration 2".toList)) = "Iteration 2" := by decide

example :
    statusList
      [⟨"Alice", "NR-100", "", "Not Started", "", ""⟩,
       ⟨"Bob", "NR-100", "", "Weird", "", ""⟩,
       ⟨"Alice", "NR-101", "", "Failed", "BUG-1", ""⟩] =
    ["Failed", "Not Started", "Weird"] := by decide

example :
    groupRecords
      [⟨"Alice", "NR-100", "", "Not Started", "", ""⟩,
       ⟨"Alice", "NR-101", "2", "Failed", "BUG-1", ""⟩,
       ⟨"Alice", "NR-101", "3", "Failed", "", ""⟩] =
    [⟨"Alice",
      [⟨"Alice", "NR-100", "", "Not Started", "", ""⟩,
       ⟨"Alice", "NR-101", "2", "Failed", "BUG-1", ""⟩,
       ⟨"Alice", "NR-101", "3", "Failed", "", ""⟩],
      [("Not Started", 1), ("Failed", 2)],
      [("NR-100", ["1"]), ("NR-101", ["2", "3"])]⟩] := by decide

example :
    (parseIndex [["Test Story", "Description", "Status"],
                 ["S-1", "desc", "Passed"], ["", "", ""]]).bodyRows =
    [["S-1", "desc", "Passed"]] := by decide

example :
    (parseIndex [["Test Story", "Description", "Status"],
                 ["S-1", "desc", "Passed"], ["", "", ""]]).statusIdx = 2 := by decide

example : percentOneDecimal 1 3 = 333 / 10 := by
  rw [percentOneDecimal, roundTenth]
  norm_num [round_eq]

example : percentOneDecimal 2 0 = 0 := by
  rw [percentOneDecimal]
  norm_num

end Scratch

namespace Report

/-! ### Basic characterization of the row normalizer -/

theorem processRow_eq_some_iff {sheetName : String} {tIdx sIdx dIdx cIdx iIdx : Option Nat}
    {row : List String} {rec : Record} :
    processRow sheetName tIdx sIdx dIdx cIdx iIdx row = some rec ↔
      jsTrim (getCell row tIdx) ≠ "" ∧
      rec = ⟨getCell row tIdx, sheetName,
             jsTrim (String.mk (stripItr (rawIterOf sheetName iIdx row).toList)),
             if jsTrim (getCell row sIdx) = "" then "Not Started"
             else jsTrim (getCell row sIdx),
             getCell row dIdx, getCell row cIdx⟩ := by
  unfold processRow
  by_cases h : jsTrim (getCell row tIdx) = "" <;> simp [h, eq_comm]

theorem mem_sheetRecords_iff {name : String} {rows : List (List String)} {r : Record} :
    r ∈ sheetRecords name rows ↔
      ∃ hIdx, findHeaderIdx rows = some hIdx ∧
        ∃ row ∈ rows.drop (hIdx + 1),
          processRow name (colIdx ((rows.get? hIdx).getD []) "tester")
            (colIdx ((rows.get? hIdx).getD []) "overall status")
            (colIdx ((rows.get? hIdx).getD []) "defect")
            (colIdx ((rows.get? hIdx).getD []) "comment")
            (colIdx ((rows.get? hIdx).getD []) "iteration") row = some r := by
  unfold sheetRecords
  cases hfind : findHeaderIdx rows <;> simp [hfind, List.mem_filterMap]

theorem mem_allRecords_iff {sheets : List (String × List (List String))} {r : Record} :
    r ∈ allRecords sheets ↔
      ∃ p ∈ sheets, (jsLower p.1 != "index") = true ∧ r ∈ sheetRecords p.1 p.2 := by
  unfold allRecords
  simp only [List.mem_flatMap, List.mem_filter]
  constructor
  · rintro ⟨p, ⟨hp, hidx⟩, hr⟩; exact ⟨p, hp, hidx, hr⟩
  · rintro ⟨p, hp, hidx, hr⟩; exact ⟨p, ⟨hp, hidx⟩, hr⟩

/-- C1: a data row below the header whose tester cell is blank,
all-whitespace or out of range produces no `Record` (the normalizer skips
it), and consequently no record of the pipeline output has a blank trimmed
tester. -/
theorem blank_tester_row_skipped :
    (∀ (sheetName : String) (tIdx sIdx dIdx cIdx iIdx : Option Nat) (row : List String),
        jsTrim (getCell row tIdx) = "" →
        processRow sheetName tIdx sIdx dIdx cIdx iIdx row = none) ∧
    (∀ (sheets : List (String × List (List String))) (r : Record),
        r ∈ allRecords sheets → jsTrim r.tester ≠ "") := by
  constructor
  · intro sheetName tIdx sIdx dIdx cIdx iIdx row h
    unfold processRow
    simp [h]
  · intro sheets r hr
    rw [mem_allRecords_iff] at hr
    obtain ⟨p, -, -, hr⟩ := hr
    rw [mem_sheetRecords_iff] at hr
    obtain ⟨hIdx, -, row, -, hrow⟩ := hr
    rw [processRow_eq_some_iff] at hrow
    obtain ⟨hne, rfl⟩ := hrow
    exact hne

/-- Witness for C1 at concrete inputs: a whitespace tester cell is skipped,
and a concrete pipeline record has a non-blank tester. -/
theorem blank_tester_row_skipped_witness :
    jsTrim (getCell [" "] (some 0)) = "" ∧
    processRow "S" (some 0) none none none none [" "] = none ∧
    (⟨"Alice", "NR-100", "", "Not Started", "", ""⟩ : Record) ∈
      allRecords [("NR-100", [["Tester"], ["Alice"]])] ∧
    jsTrim (Record.tester ⟨"Alice", "NR-100", "", "Not Started", "", ""⟩) ≠ "" :=
  ⟨by decide,
   blank_tester_row_skipped.1 "S" (some 0) none none none none [" "] (by decide),
   by decide,
   blank_tester_row_skipped.2 [("NR-100", [["Tester"], ["Alice"]])] _ (by decide)⟩

/-- C2: an emitted record's `overallStatus` is the trimmed raw status cell,
or the literal "Not Started" when that trims to empty (also when the status
column is missing or the row too short); hence it is never empty. -/
theorem overall_status_never_empty :
    (∀ (sheetName : String) (tIdx sIdx dIdx cIdx iIdx : Option Nat)
        (row : List String) (rec : Record),
        processRow sheetName tIdx sIdx dIdx cIdx iIdx row = some rec →
        rec.overallStatus =
          (if jsTrim (getCell row sIdx) = "" then "Not Started"
           else jsTrim (getCell row sIdx))) ∧
    (∀ (sheets : List (String × List (List String))) (r : Record),
        r ∈ allRecords sheets → r.overallStatus ≠ "") := by
  constructor
  · intro sheetName tIdx sIdx dIdx cIdx iIdx row rec h
    rw [processRow_eq_some_iff] at h
    obtain ⟨-, rfl⟩ := h
    rfl
  · intro sheets r hr
    rw [mem_allRecords_iff] at hr
    obtain ⟨p, -, -, hr⟩ := hr
    rw [mem_sheetRecords_iff] at hr
    obtain ⟨hIdx, -, row, -, hrow⟩ := hr
    rw [processRow_eq_some_iff] at hrow
    obtain ⟨-, rfl⟩ := hrow
    simp only [Record.overallStatus]
    split
    · decide
    · assumption

/-- Witness for C2 at concrete inputs: a whitespace-only status defaults to
"Not Started", a non-blank one is trimmed, and a concrete pipeline record
has non-empty status. -/
theorem overall_status_never_empty_witness :
    processRow "S" (some 0) (some 1) none none none ["Alice", "  "] =
      some ⟨"Alice", "S", "", "Not Started", "", ""⟩ ∧
    (if jsTrim (getCell ["Alice", "  "] (some 1)) = "" then "Not Started"
     else jsTrim (getCell ["Alice", "  "] (some 1))) = "Not Started" ∧
    (⟨"Alice", "NR-100", "", "Not Started", "", ""⟩ : Record) ∈
      allRecords [("NR-100", [["Tester"], ["Alice"]])] ∧
    Record.overallStatus (⟨"Alice", "NR-100", "", "Not Started", "", ""⟩ : Record) =
      (if jsTrim (getCell ["Alice"] (colIdx ["Tester"] "overall status")) = ""
       then "Not Started"
       else jsTrim (getCell ["Alice"] (colIdx ["Tester"] "overall status"))) ∧
    Record.overallStatus (⟨"Alice", "NR-100", "", "Not Started", "", ""⟩ : Record) ≠ "" :=
  ⟨by decide, by decide, by decide,
   overall_status_never_empty.1 "NR-100" (colIdx ["Tester"] "tester")
     (colIdx ["Tester"] "overall status") (colIdx ["Tester"] "defect")
     (colIdx ["Tester"] "comment") (colIdx ["Tester"] "iteration") ["Alice"] _ (by decide),
   overall_status_never_empty.2 [("NR-100", [["Tester"], ["Alice"]])] _ (by decide)⟩

/-- C10 (implicit): when the located header row has no cell containing
"overall status" (case-insensitively), every record of that sheet carries
`overallStatus = "Not Started"`, whatever the data rows hold. -/
theorem no_status_column_defaults_not_started
    (sheetName : String) (rows : List (List String)) (hIdx : Nat)
    (hfind : findHeaderIdx rows = some hIdx)
    (hnone : ∀ cell ∈ (rows.get? hIdx).getD [], ciContains cell "overall status" = false) :
    ∀ r ∈ sheetRecords sheetName rows, r.overallStatus = "Not Started" := by
  intro r hr
  rw [mem_sheetRecords_iff] at hr
  obtain ⟨hIdx', hfind', row, -, hrow⟩ := hr
  rw [hfind] at hfind'
  injection hfind' with h'
  subst h'
  have hcol : colIdx ((rows.get? hIdx).getD []) "overall status" = none := by
    unfold colIdx
    rw [List.findIdx?_eq_none_iff]
    exact hnone
  rw [hcol] at hrow
  rw [processRow_eq_some_iff] at hrow
  obtain ⟨-, rfl⟩ := hrow
  simp only [Record.overallStatus]
  have hempty : jsTrim (getCell row none) = "" := rfl
  rw [if_pos hempty]

/-- Witness for C10 at a concrete sheet whose header has a "Status?" cell
(which does not contain "overall status"): the data row's "Passed" is
ignored and the record defaults to "Not Started". -/
theorem no_status_column_defaults_not_started_witness :
    findHeaderIdx [["Tester", "Status?"], ["Alice", "Passed"]] = some 0 ∧
    (∀ cell ∈ (([["Tester", "Status?"], ["Alice", "Passed"]] :
        List (List String)).get? 0).getD [],
      ciContains cell "overall status" = false) ∧
    (⟨"Alice", "S", "", "Not Started", "", ""⟩ : Record) ∈
      sheetRecords "S" [["Tester", "Status?"], ["Alice", "Passed"]] ∧
    Record.overallStatus (⟨"Alice", "S", "", "Not Started", "", ""⟩ : Record) =
      "Not Started" :=
  ⟨by decide, by decide, by decide,
   no_status_column_defaults_not_started "S" [["Tester", "Status?"], ["Alice", "Passed"]]
     0 (by decide) (by decide) _ (by decide)⟩

/-- C7 counterexample: on sheet "S" with a header row and one blank-tester
data row, zero records are emitted yet the summary's rowCount is 1, so the
summary's row count is not the number of emitted records. -/
theorem summary_rowcount_counterexample :
    sheetRecords "S" [["Tester"], [""]] = [] ∧
    sheetSummary "S" [["Tester"], [""]] = ⟨"S", 1, true⟩ ∧
    (sheetSummary "S" [["Tester"], [""]]).rowCount ≠
      (sheetRecords "S" [["Tester"], [""]]).length := by decide

/-- C7 amended: the per-sheet summary's row count equals the number of rows
strictly below the located header row — rows later skipped for a blank
tester are still counted — and a sheet with zero rows or with no header
found produces a summary with count 0 and headerFound false. -/
theorem summary_rowcount_below_header (sheetName : String) (rows : List (List String)) :
    (findHeaderIdx rows = none →
      sheetSummary sheetName rows = ⟨sheetName, 0, false⟩) ∧
    (rows = [] → sheetSummary sheetName rows = ⟨sheetName, 0, false⟩) ∧
    ∀ hIdx, findHeaderIdx rows = some hIdx →
      sheetSummary sheetName rows = ⟨sheetName, (rows.drop (hIdx + 1)).length, true⟩ := by
  refine ⟨fun h => ?_, fun h => ?_, fun hIdx h => ?_⟩
  · unfold sheetSummary
    rw [h]
  · subst h
    rfl
  · unfold sheetSummary
    rw [h, List.length_drop]
    rfl

/-- Witness for C7 amended, at an empty sheet and at the counterexample
sheet (1 row below the header, 0 records emitted). -/
theorem summary_rowcount_below_header_witness :
    sheetSummary "E" ([] : List (List String)) = ⟨"E", 0, false⟩ ∧
    findHeaderIdx [["Tester"], [""]] = some 0 ∧
    sheetSummary "S" [["Tester"], [""]] =
      ⟨"S", (([["Tester"], [""]] : List (List String)).drop (0 + 1)).length, true⟩ :=
  ⟨(summary_rowcount_below_header "E" []).2.1 rfl,
   by decide,
   (summary_rowcount_below_header "S" [["Tester"], [""]]).2.2 0 (by decide)⟩

/-! ### The iteration stripping rule (C4) -/

theorem find?_range_succ (n : Nat) (p : Nat → Bool) :
    (List.range (n + 1)).find? p =
      if p 0 = true then some 0
      else ((List.range n).find? (fun i => p (i + 1))).map (· + 1) := by
  rw [List.range_succ_eq_map]
  by_cases h : p 0 = true
  · rw [List.find?_cons_of_pos _ h, if_pos h]
  · rw [List.find?_cons_of_neg _ (by simp [h]), if_neg h, List.find?_map]
    rfl

/-- `stripItr` removes the match of `itr[- ]?` at the leftmost position
where one exists (found by scanning positions in increasing order) and is
the identity when no position matches. -/
theorem stripItr_eq_find (l : List Char) :
    stripItr l =
      match (List.range l.length).find? (fun i => itrHeadMatch (l.drop i)) with
      | none => l
      | some i => l.take i ++ dropItrHere (l.drop i) := by
  induction l with
  | nil => rfl
  | cons a tail ih =>
    rw [show (a :: tail).length = tail.length + 1 from rfl, find?_range_succ]
    by_cases h : itrHeadMatch (a :: tail) = true
    · rw [if_pos (show itrHeadMatch ((a :: tail).drop 0) = true from h)]
      show stripItr (a :: tail) =
        List.take 0 (a :: tail) ++ dropItrHere (List.drop 0 (a :: tail))
      simp only [List.take_zero, List.drop_zero, List.nil_append]
      unfold stripItr
      rw [if_pos h]
    · rw [if_neg (show ¬itrHeadMatch ((a :: tail).drop 0) = true from h)]
      unfold stripItr
      rw [if_neg h]
      have hdrop : (fun i => itrHeadMatch ((a :: tail).drop (i + 1))) =
          (fun i => itrHeadMatch (tail.drop i)) := rfl
      rw [hdrop, ih]
      cases hf : (List.range tail.length).find? (fun i => itrHeadMatch (tail.drop i)) with
      | none => rfl
      | some i => rfl

theorem mk_toList (s : String) : String.mk s.toList = s := rfl

/-- The full stripping-plus-trim step of the normalizer equals the
first-occurrence-anywhere rule of the amended claim. -/
theorem jsTrim_stripItr_eq_specStripAnywhere (s : String) :
    jsTrim (String.mk (stripItr s.toList)) = specStripAnywhere s := by
  unfold specStripAnywhere
  rw [stripItr_eq_find]
  cases hf : (List.range s.toList.length).find? (fun i => itrHeadMatch (s.toList.drop i)) with
  | none => rw [mk_toList]
  | some i => rfl

/-- C4 counterexample: with an iteration column holding "QA itr-5" — where
"itr-" occurs, but not as a leading prefix — the code strips it anyway and
emits iteration "QA 5", while the claimed leading-prefix-only rule would
leave "QA itr-5" unchanged. -/
theorem iteration_leading_strip_counterexample :
    sheetRecords "S" [["Tester", "Iteration"], ["Alice", "QA itr-5"]] =
      [⟨"Alice", "S", "QA 5", "Not Started", "", ""⟩] ∧
    specLeadingItrStrip "QA itr-5" = "QA itr-5" ∧
    ("QA 5" : String) ≠ "QA itr-5" := by decide

/-- C4 amended: the raw iteration value comes from the iteration cell when
a column was located, else from the `itr[- ]?\d+` token of the sheet name;
the final label then strips the FIRST occurrence of "itr" plus optional
`-`/space anywhere in that value (not only a leading prefix) and trims
whitespace.  In particular sheet "ITR-7 Checkout" without an iteration
column yields "7", and an explicit cell "itr 4" yields "4". -/
theorem iteration_label_strip_anywhere :
    (∀ (sheetName : String) (tIdx sIdx dIdx cIdx iIdx : Option Nat)
        (row : List String) (rec : Record),
        processRow sheetName tIdx sIdx dIdx cIdx iIdx row = some rec →
        rec.iteration = specStripAnywhere (rawIterOf sheetName iIdx row)) ∧
    sheetRecords "ITR-7 Checkout" [["Tester"], ["Alice"]] =
      [⟨"Alice", "ITR-7 Checkout", "7", "Not Started", "", ""⟩] ∧
    sheetRecords "S" [["Tester", "Iteration"], ["Alice", "itr 4"]] =
      [⟨"Alice", "S", "4", "Not Started", "", ""⟩] ∧
    sheetRecords "S" [["Tester", "Iteration"], ["Alice", "QA itr-5"]] =
      [⟨"Alice", "S", "QA 5", "Not Started", "", ""⟩] := by
  refine ⟨?_, by decide, by decide, by decide⟩
  intro sheetName tIdx sIdx dIdx cIdx iIdx row rec h
  rw [processRow_eq_some_iff] at h
  obtain ⟨-, rfl⟩ := h
  exact jsTrim_stripItr_eq_specStripAnywhere _

/-- Witness for C4 amended at the concrete inputs of the claim. -/
theorem iteration_label_strip_anywhere_witness :
    processRow "S" (some 0) none none none (some 1) ["Alice", "QA itr-5"] =
      some ⟨"Alice", "S", "QA 5", "Not Started", "", ""⟩ ∧
    Record.iteration (⟨"Alice", "S", "QA 5", "Not Started", "", ""⟩ : Record) =
      specStripAnywhere (rawIterOf "S" (some 1) ["Alice", "QA itr-5"]) :=
  ⟨by decide,
   iteration_label_strip_anywhere.1 "S" (some 0) none none none (some 1)
     ["Alice", "QA itr-5"] _ (by decide)⟩

/-! ### First-seen sets (`setAdd` folds) -/

theorem mem_foldl_setAdd (l : List String) (init : List String) (x : String) :
    x ∈ l.foldl setAdd init ↔ x ∈ init ∨ x ∈ l := by
  induction l generalizing init with
  | nil => simp
  | cons a t ih =>
    rw [List.foldl_cons, ih]
    unfold setAdd
    by_cases h : a ∈ init
    · rw [if_pos h]
      simp only [List.mem_cons]
      constructor
      · rintro (hx | hx)
        exacts [Or.inl hx, Or.inr (Or.inr hx)]
      · rintro (hx | rfl | hx)
        exacts [Or.inl hx, Or.inl h, Or.inr hx]
    · rw [if_neg h]
      simp [List.mem_append, or_assoc]

theorem nodup_foldl_setAdd (l : List String) (init : List String) (h : init.Nodup) :
    (l.foldl setAdd init).Nodup := by
  induction l generalizing init with
  | nil => simpa
  | cons a t ih =>
    rw [List.foldl_cons]
    apply ih
    unfold setAdd
    by_cases ha : a ∈ init
    · rwa [if_pos ha]
    · rw [if_neg ha]
      refine List.Nodup.append h (List.nodup_singleton a) ?_
      intro x hx hxa
      rw [List.mem_singleton] at hxa
      subst hxa
      exact ha hx

theorem foldl_setAdd_of_nodup (l : List String) :
    ∀ init : List String, l.Nodup →
      l.foldl setAdd init = init ++ l.filter (fun s => decide (s ∉ init)) := by
  induction l with
  | nil =>
    intro init _
    simp
  | cons a t ih =>
    intro init hl
    rcases List.nodup_cons.mp hl with ⟨ha, ht⟩
    rw [List.foldl_cons]
    by_cases h : a ∈ init
    · rw [show setAdd init a = init from if_pos h, ih init ht, List.filter_cons,
        show (decide (a ∉ init)) = false from by simp [h]]
      simp only [Bool.false_eq_true, if_false]
    · rw [show setAdd init a = init ++ [a] from if_neg h, ih _ ht, List.filter_cons,
        show (decide (a ∉ init)) = true from by simp [h]]
      simp only [if_true]
      rw [List.append_assoc, List.singleton_append]
      congr 2
      apply List.filter_congr
      intro x hx
      have hxa : x ≠ a := fun e => ha (e ▸ hx)
      simp [List.mem_append, hxa]

theorem mem_firstSeen (l : List String) (x : String) : x ∈ firstSeen l ↔ x ∈ l := by
  unfold firstSeen
  rw [mem_foldl_setAdd]
  simp

theorem nodup_firstSeen (l : List String) : (firstSeen l).Nodup :=
  nodup_foldl_setAdd l [] List.nodup_nil

/-- C3: the status display order is exactly the canonical priority list
filtered to the statuses occurring among the records (in canonical order),
followed by the non-canonical statuses in first-seen order; canonical
statuses with zero occurrences are omitted.  (Records carry non-empty
statuses, which the hypothesis reflects.) -/
theorem status_list_canonical_then_first_seen (records : List Record)
    (h : ∀ r ∈ records, r.overallStatus ≠ "") :
    statusList records =
      statusOrder.filter (fun s => decide (s ∈ records.map Record.overallStatus)) ++
        (firstSeen (records.map Record.overallStatus)).filter
          (fun s => decide (s ∉ statusOrder)) := by
  have hfilter : (records.map Record.overallStatus).filter (fun s => decide (s ≠ "")) =
      records.map Record.overallStatus := by
    apply List.filter_eq_self.mpr
    intro s hs
    rw [List.mem_map] at hs
    obtain ⟨r, hr, rfl⟩ := hs
    simpa using h r hr
  unfold statusList
  rw [hfilter]
  have hnodupS : (firstSeen (records.map Record.overallStatus)).Nodup :=
    nodup_firstSeen _
  rw [foldl_setAdd_of_nodup _ _ hnodupS]
  congr 1
  · apply List.filter_congr
    intro x hx
    simp only [decide_eq_decide]
    exact mem_firstSeen _ x
  · apply List.filter_congr
    intro x hxS
    have hbase : x ∈ statusOrder.filter
        (fun s => decide (s ∈ firstSeen (records.map Record.overallStatus))) ↔
        x ∈ statusOrder := by
      rw [List.mem_filter]
      simp [hxS]
    simp only [decide_eq_decide]
    rw [hbase]

/-- Witness for C3 at a concrete record list containing a non-canonical
status and two canonical ones. -/
theorem status_list_canonical_then_first_seen_witness :
    (∀ r ∈ ([⟨"Alice", "NR-100", "", "Weird", "", ""⟩,
             ⟨"Bob", "NR-100", "", "Failed", "", ""⟩,
             ⟨"Alice", "NR-101", "", "Passed", "", ""⟩] : List Record),
       r.overallStatus ≠ "") ∧
    statusList
        [⟨"Alice", "NR-100", "", "Weird", "", ""⟩,
         ⟨"Bob", "NR-100", "", "Failed", "", ""⟩,
         ⟨"Alice", "NR-101", "", "Passed", "", ""⟩] =
      statusOrder.filter (fun s => decide (s ∈
        ([⟨"Alice", "NR-100", "", "Weird", "", ""⟩,
          ⟨"Bob", "NR-100", "", "Failed", "", ""⟩,
          ⟨"Alice", "NR-101", "", "Passed", "", ""⟩] : List Record).map
            Record.overallStatus)) ++
        (firstSeen (([⟨"Alice", "NR-100", "", "Weird", "", ""⟩,
          ⟨"Bob", "NR-100", "", "Failed", "", ""⟩,
          ⟨"Alice", "NR-101", "", "Passed", "", ""⟩] : List Record).map
            Record.overallStatus)).filter (fun s => decide (s ∉ statusOrder)) :=
  ⟨by decide, status_list_canonical_then_first_seen _ (by decide)⟩

/-! ### Grouping machinery (C5, C6) -/

theorem mem_setAdd (l : List String) (k x : String) : x ∈ setAdd l k ↔ x ∈ l ∨ x = k := by
  unfold setAdd
  by_cases h : k ∈ l
  · rw [if_pos h]
    constructor
    · exact Or.inl
    · rintro (hx | rfl)
      exacts [hx, h]
  · rw [if_neg h]
    simp [List.mem_append]

theorem nodup_setAdd (l : List String) (x : String) (h : l.Nodup) : (setAdd l x).Nodup := by
  unfold setAdd
  by_cases hx : x ∈ l
  · rwa [if_pos hx]
  · rw [if_neg hx]
    refine List.Nodup.append h (List.nodup_singleton x) ?_
    intro y hy hyx
    rw [List.mem_singleton] at hyx
    subst hyx
    exact hx hy

theorem setAdd_cons (x : String) (xs : List String) (k : String) (h : k ≠ x) :
    setAdd (x :: xs) k = x :: setAdd xs k := by
  unfold setAdd
  by_cases hk : k ∈ xs
  · rw [if_pos hk, if_pos (List.mem_cons_of_mem _ hk)]
  · rw [if_neg hk, if_neg ?_]
    · rfl
    · rw [List.mem_cons]
      rintro (h' | h')
      exacts [h h', hk h']

theorem lookupG_insertRec_self (groups : List TesterGroup) (key : String) (r : Record) :
    lookupG (insertRec groups key r) key =
      some (match lookupG groups key with
            | some g => addToGroup g r
            | none => addToGroup ⟨key, [], [], []⟩ r) := by
  induction groups with
  | nil =>
    show (if (addToGroup ⟨key, [], [], []⟩ r).tester = key then
        some (addToGroup ⟨key, [], [], []⟩ r) else none) = _
    rw [if_pos (show (addToGroup ⟨key, [], [], []⟩ r).tester = key from rfl)]
    rfl
  | cons g rest ih =>
    show lookupG (if g.tester = key then addToGroup g r :: rest
        else g :: insertRec rest key r) key =
      some (match (if g.tester = key then some g else lookupG rest key) with
            | some g => addToGroup g r
            | none => addToGroup ⟨key, [], [], []⟩ r)
    by_cases h : g.tester = key
    · rw [if_pos h, if_pos h]
      show (if (addToGroup g r).tester = key then some (addToGroup g r)
          else lookupG rest key) = some (addToGroup g r)
      rw [if_pos (show (addToGroup g r).tester = key from h)]
    · rw [if_neg h, if_neg h]
      show (if g.tester = key then some g else lookupG (insertRec rest key r) key) = _
      rw [if_neg h]
      exact ih

theorem lookupG_insertRec_other (groups : List TesterGroup) (key t : String) (r : Record)
    (h : key ≠ t) :
    lookupG (insertRec groups key r) t = lookupG groups t := by
  induction groups with
  | nil =>
    show (if (addToGroup ⟨key, [], [], []⟩ r).tester = t then _ else none) =
      (none : Option TesterGroup)
    rw [if_neg (show ¬(addToGroup ⟨key, [], [], []⟩ r).tester = t from h)]
  | cons g rest ih =>
    show lookupG (if g.tester = key then addToGroup g r :: rest
        else g :: insertRec rest key r) t = _
    by_cases hg : g.tester = key
    · rw [if_pos hg]
      show (if (addToGroup g r).tester = t then some (addToGroup g r)
          else lookupG rest t) = (if g.tester = t then some g else lookupG rest t)
      rw [if_neg (show ¬(addToGroup g r).tester = t from hg ▸ h),
        if_neg (show ¬g.tester = t from hg ▸ h)]
    · rw [if_neg hg]
      show (if g.tester = t then some g else lookupG (insertRec rest key r) t) = _
      by_cases hgt : g.tester = t
      · rw [if_pos hgt]
        show _ = (if g.tester = t then some g else lookupG rest t)
        rw [if_pos hgt]
      · rw [if_neg hgt]
        show _ = (if g.tester = t then some g else lookupG rest t)
        rw [if_neg hgt]
        exact ih

theorem lookupG_groupStep (groups : List TesterGroup) (r : Record) (t : String)
    (ht : t ≠ "") :
    lookupG (groupStep groups r) t =
      if jsTrim r.tester = t then
        some (match lookupG groups t with
              | some g => addToGroup g r
              | none => addToGroup ⟨t, [], [], []⟩ r)
      else lookupG groups t := by
  unfold groupStep
  by_cases hkey : jsTrim r.tester = ""
  · rw [if_pos hkey, if_neg (show ¬jsTrim r.tester = t from hkey ▸ fun e => ht e.symm)]
  · rw [if_neg hkey]
    by_cases heq : jsTrim r.tester = t
    · rw [if_pos heq, ← heq]
      exact lookupG_insertRec_self groups (jsTrim r.tester) r
    · rw [if_neg heq]
      exact lookupG_insertRec_other groups (jsTrim r.tester) t r heq

theorem extendG_nil (g : TesterGroup) : extendG g [] = g := by
  unfold extendG buildSC buildTI
  rw [List.foldl_nil, List.foldl_nil, List.append_nil]

theorem extendG_cons (g : TesterGroup) (r : Record) (rs : List Record) :
    extendG g (r :: rs) = extendG (addToGroup g r) rs := by
  unfold extendG addToGroup buildSC buildTI
  rw [List.foldl_cons, List.foldl_cons]
  simp [List.append_assoc]

theorem lookupG_foldl_groupStep (recs : List Record) :
    ∀ (acc : List TesterGroup) (t : String), t ≠ "" →
      lookupG (recs.foldl groupStep acc) t =
        match lookupG acc t with
        | some g => some (extendG g (recsOf recs t))
        | none =>
          if recsOf recs t = [] then none
          else some (extendG ⟨t, [], [], []⟩ (recsOf recs t)) := by
  induction recs with
  | nil =>
    intro acc t ht
    cases h : lookupG acc t with
    | none => simp [recsOf, h]
    | some g => simp [recsOf, h, extendG_nil]
  | cons r rest ih =>
    intro acc t ht
    rw [List.foldl_cons, ih (groupStep acc r) t ht, lookupG_groupStep acc r t ht]
    by_cases hmatch : jsTrim r.tester = t
    · rw [if_pos hmatch]
      have hrecs : recsOf (r :: rest) t = r :: recsOf rest t := by
        unfold recsOf
        rw [List.filter_cons, if_pos (by simp [hmatch])]
      rw [hrecs]
      cases hacc : lookupG acc t with
      | some g =>
        show some (extendG (addToGroup g r) (recsOf rest t)) =
          some (extendG g (r :: recsOf rest t))
        rw [extendG_cons]
      | none =>
        show some (extendG (addToGroup ⟨t, [], [], []⟩ r) (recsOf rest t)) =
          if r :: recsOf rest t = [] then none
          else some (extendG ⟨t, [], [], []⟩ (r :: recsOf rest t))
        rw [if_neg (List.cons_ne_nil r (recsOf rest t)), extendG_cons]
    · rw [if_neg hmatch]
      have hrecs : recsOf (r :: rest) t = recsOf rest t := by
        unfold recsOf
        rw [List.filter_cons, if_neg (by simp [hmatch])]
      rw [hrecs]

theorem lookupG_groupRecords (records : List Record) (t : String) (ht : t ≠ "") :
    lookupG (groupRecords records) t =
      if recsOf records t = [] then none
      else some (extendG ⟨t, [], [], []⟩ (recsOf records t)) := by
  unfold groupRecords
  rw [lookupG_foldl_groupStep records [] t ht]
  rfl

theorem keys_insertRec (groups : List TesterGroup) (key : String) (r : Record) :
    (insertRec groups key r).map TesterGroup.tester =
      setAdd (groups.map TesterGroup.tester) key := by
  induction groups with
  | nil => simp [insertRec, setAdd, addToGroup]
  | cons g rest ih =>
    show (if g.tester = key then addToGroup g r :: rest
        else g :: insertRec rest key r).map TesterGroup.tester = _
    by_cases h : g.tester = key
    · rw [if_pos h]
      show (addToGroup g r).tester :: rest.map TesterGroup.tester =
        setAdd (g.tester :: rest.map TesterGroup.tester) key
      rw [show setAdd (g.tester :: rest.map TesterGroup.tester) key =
          g.tester :: rest.map TesterGroup.tester from
        if_pos (by rw [← h]; exact List.mem_cons_self _ _)]
      rfl
    · rw [if_neg h]
      show g.tester :: (insertRec rest key r).map TesterGroup.tester =
        setAdd (g.tester :: rest.map TesterGroup.tester) key
      rw [ih, setAdd_cons _ _ _ (fun e => h e.symm)]

theorem keys_groupStep (groups : List TesterGroup) (r : Record) :
    (groupStep groups r).map TesterGroup.tester =
      if jsTrim r.tester = "" then groups.map TesterGroup.tester
      else setAdd (groups.map TesterGroup.tester) (jsTrim r.tester) := by
  unfold groupStep
  by_cases h : jsTrim r.tester = ""
  · rw [if_pos h, if_pos h]
  · rw [if_neg h, if_neg h, keys_insertRec]

theorem keys_nodup_foldl_groupStep (recs : List Record) :
    ∀ acc : List TesterGroup, ((acc.map TesterGroup.tester).Nodup) →
      (((recs.foldl groupStep acc).map TesterGroup.tester).Nodup) := by
  induction recs with
  | nil =>
    intro acc h
    simpa using h
  | cons r rest ih =>
    intro acc h
    rw [List.foldl_cons]
    apply ih
    rw [keys_groupStep]
    split
    · exact h
    · exact nodup_setAdd _ _ h

theorem keys_nodup_groupRecords (records : List Record) :
    ((groupRecords records).map TesterGroup.tester).Nodup :=
  keys_nodup_foldl_groupStep records [] List.nodup_nil

theorem keys_ne_empty_foldl_groupStep (recs : List Record) :
    ∀ acc : List TesterGroup,
      (∀ x ∈ acc.map TesterGroup.tester, x ≠ "") →
      ∀ x ∈ (recs.foldl groupStep acc).map TesterGroup.tester, x ≠ "" := by
  induction recs with
  | nil =>
    intro acc h
    simpa using h
  | cons r rest ih =>
    intro acc h
    rw [List.foldl_cons]
    apply ih
    rw [keys_groupStep]
    split
    · exact h
    · intro x hx
      rcases (mem_setAdd _ _ x).mp hx with hx' | rfl
      · exact h x hx'
      · assumption

theorem tester_ne_empty_of_mem_groupRecords (records : List Record) (g : TesterGroup)
    (hg : g ∈ groupRecords records) : g.tester ≠ "" :=
  keys_ne_empty_foldl_groupStep records [] (by simp) g.tester
    (List.mem_map_of_mem _ hg)

theorem mem_of_lookupG (groups : List TesterGroup) (t : String) (g : TesterGroup)
    (h : lookupG groups t = some g) : g ∈ groups := by
  induction groups with
  | nil => cases h
  | cons g' rest ih =>
    rw [show lookupG (g' :: rest) t =
        (if g'.tester = t then some g' else lookupG rest t) from rfl] at h
    by_cases he : g'.tester = t
    · rw [if_pos he] at h
      injection h with h
      exact h ▸ List.mem_cons_self _ _
    · rw [if_neg he] at h
      exact List.mem_cons_of_mem _ (ih h)

theorem tester_lookupG_of_mem (groups : List TesterGroup)
    (hnd : (groups.map TesterGroup.tester).Nodup) :
    ∀ g ∈ groups, lookupG groups g.tester = some g := by
  induction groups with
  | nil =>
    intro g hg
    cases hg
  | cons g' rest ih =>
    intro g hg
    rw [List.map_cons, List.nodup_cons] at hnd
    obtain ⟨hni, hnd'⟩ := hnd
    rcases List.mem_cons.mp hg with rfl | hg'
    · show (if g.tester = g.tester then some g else lookupG rest g.tester) = some g
      rw [if_pos rfl]
    · show (if g'.tester = g.tester then some g' else lookupG rest g.tester) = some g
      have hne : g'.tester ≠ g.tester :=
        fun e => hni (e ▸ List.mem_map_of_mem TesterGroup.tester hg')
      rw [if_neg hne]
      exact ih hnd' g hg'

/-! ### The per-ticket iteration-label sets -/

theorem lookupA_addIterLab_self (m : List (String × List String)) (ticket lab : String) :
    lookupA (addIterLab m ticket lab) ticket =
      some (setAdd ((lookupA m ticket).getD []) lab) := by
  induction m with
  | nil =>
    show (if ticket = ticket then some [lab] else none) = some (setAdd [] lab)
    rw [if_pos rfl]
    simp [setAdd]
  | cons p rest ih =>
    obtain ⟨t, s⟩ := p
    show lookupA (if t = ticket then (t, setAdd s lab) :: rest
        else (t, s) :: addIterLab rest ticket lab) ticket = _
    by_cases h : t = ticket
    · rw [if_pos h]
      show (if t = ticket then some (setAdd s lab) else lookupA rest ticket) =
        some (setAdd ((if t = ticket then some s else lookupA rest ticket).getD []) lab)
      rw [if_pos h, if_pos h]
      rfl
    · rw [if_neg h]
      show (if t = ticket then some s
          else lookupA (addIterLab rest ticket lab) ticket) =
        some (setAdd ((if t = ticket then some s else lookupA rest ticket).getD []) lab)
      rw [if_neg h, if_neg h]
      exact ih

theorem lookupA_addIterLab_other (m : List (String × List String)) (ticket lab k : String)
    (h : k ≠ ticket) :
    lookupA (addIterLab m ticket lab) k = lookupA m k := by
  induction m with
  | nil =>
    show (if ticket = k then some [lab] else none) = none
    rw [if_neg (fun e => h e.symm)]
  | cons p rest ih =>
    obtain ⟨t, s⟩ := p
    show lookupA (if t = ticket then (t, setAdd s lab) :: rest
        else (t, s) :: addIterLab rest ticket lab) k = _
    by_cases ht : t = ticket
    · rw [if_pos ht]
      show (if t = k then some (setAdd s lab) else lookupA rest k) =
        (if t = k then some s else lookupA rest k)
      rw [if_neg (ht ▸ fun e => h e.symm), if_neg (ht ▸ fun e => h e.symm)]
    · rw [if_neg ht]
      show (if t = k then some s else lookupA (addIterLab rest ticket lab) k) =
        (if t = k then some s else lookupA rest k)
      by_cases htk : t = k
      · rw [if_pos htk, if_pos htk]
      · rw [if_neg htk, if_neg htk]
        exact ih

theorem lookupA_buildTI (rs : List Record) :
    ∀ (m : List (String × List String)) (k : String),
      lookupA (buildTI m rs) k =
        match lookupA m k with
        | some s => some ((labsOf rs k).foldl setAdd s)
        | none =>
          if labsOf rs k = [] then none
          else some ((labsOf rs k).foldl setAdd []) := by
  induction rs with
  | nil =>
    intro m k
    cases h : lookupA m k with
    | none => simp [buildTI, labsOf, h]
    | some s => simp [buildTI, labsOf, h]
  | cons r rest ih =>
    intro m k
    rw [show buildTI m (r :: rest) =
        buildTI (addIterLab m r.jiraTicket (labOf r)) rest from rfl, ih]
    by_cases hk : r.jiraTicket = k
    · have hlabs : labsOf (r :: rest) k = labOf r :: labsOf rest k := by
        unfold labsOf
        rw [List.filter_cons, if_pos (by simp [hk])]
        rfl
      rw [hlabs, ← hk, lookupA_addIterLab_self]
      cases hm : lookupA m r.jiraTicket with
      | none =>
        show some ((labsOf rest r.jiraTicket).foldl setAdd (setAdd [] (labOf r))) =
          if labOf r :: labsOf rest r.jiraTicket = [] then none
          else some ((labOf r :: labsOf rest r.jiraTicket).foldl setAdd [])
        rw [if_neg (List.cons_ne_nil _ _), List.foldl_cons]
      | some s =>
        show some ((labsOf rest r.jiraTicket).foldl setAdd (setAdd s (labOf r))) =
          some ((labOf r :: labsOf rest r.jiraTicket).foldl setAdd s)
        rw [List.foldl_cons]
    · have hlabs : labsOf (r :: rest) k = labsOf rest k := by
        unfold labsOf
        rw [List.filter_cons, if_neg (by simp [hk])]
      rw [hlabs, lookupA_addIterLab_other m r.jiraTicket (labOf r) k
        (fun e => hk e.symm)]

theorem keys_addIterLab (m : List (String × List String)) (ticket lab : String) :
    (addIterLab m ticket lab).map Prod.fst = setAdd (m.map Prod.fst) ticket := by
  induction m with
  | nil => simp [addIterLab, setAdd]
  | cons p rest ih =>
    obtain ⟨t, s⟩ := p
    show (if t = ticket then (t, setAdd s lab) :: rest
        else (t, s) :: addIterLab rest ticket lab).map Prod.fst = _
    by_cases h : t = ticket
    · rw [if_pos h]
      show t :: rest.map Prod.fst = setAdd (t :: rest.map Prod.fst) ticket
      rw [show setAdd (t :: rest.map Prod.fst) ticket = t :: rest.map Prod.fst from
        if_pos (by rw [← h]; exact List.mem_cons_self _ _)]
    · rw [if_neg h]
      show t :: (addIterLab rest ticket lab).map Prod.fst =
        setAdd (t :: rest.map Prod.fst) ticket
      rw [ih, setAdd_cons _ _ _ (fun e => h e.symm)]

theorem keys_buildTI (rs : List Record) :
    ∀ m : List (String × List String),
      (buildTI m rs).map Prod.fst =
        (rs.map Record.jiraTicket).foldl setAdd (m.map Prod.fst) := by
  induction rs with
  | nil =>
    intro m
    rfl
  | cons r rest ih =>
    intro m
    rw [show buildTI m (r :: rest) =
        buildTI (addIterLab m r.jiraTicket (labOf r)) rest from rfl, ih,
      keys_addIterLab, List.map_cons, List.foldl_cons]

theorem length_foldl_setAdd_toFinset (l : List String) :
    (l.foldl setAdd []).length = l.toFinset.card := by
  have h3 : (firstSeen l).toFinset = l.toFinset := by
    apply Finset.ext
    intro x
    rw [List.mem_toFinset, List.mem_toFinset, mem_firstSeen]
  rw [← h3, List.toFinset_card_of_nodup (nodup_firstSeen l)]
  rfl

theorem lookupA_map_snd {α β : Type} (m : List (String × α)) (f : α → β) (k : String) :
    lookupA (m.map (fun p => (p.1, f p.2))) k = (lookupA m k).map f := by
  induction m with
  | nil => rfl
  | cons p rest ih =>
    obtain ⟨t, v⟩ := p
    show (if t = k then some (f v) else lookupA (rest.map (fun p => (p.1, f p.2))) k) = _
    by_cases h : t = k
    · rw [if_pos h]
      show _ = Option.map f (if t = k then some v else lookupA rest k)
      rw [if_pos h]
      rfl
    · rw [if_neg h]
      show _ = Option.map f (if t = k then some v else lookupA rest k)
      rw [if_neg h]
      exact ih

/-- C6: for every tester group of the aggregated model, `uniqueTicketCount`
equals the number of distinct `jiraTicket` values among that tester's
records. -/
theorem unique_ticket_count_distinct (records : List Record) (g : TesterGroup)
    (hg : g ∈ groupRecords records) :
    (testerData (statusList records) g).uniqueTicketCount =
      ((recsOf records g.tester).map Record.jiraTicket).toFinset.card := by
  have ht : g.tester ≠ "" := tester_ne_empty_of_mem_groupRecords records g hg
  have hlook : lookupG (groupRecords records) g.tester = some g :=
    tester_lookupG_of_mem _ (keys_nodup_groupRecords records) g hg
  have hchar := lookupG_groupRecords records g.tester ht
  rw [hlook] at hchar
  by_cases hnil : recsOf records g.tester = []
  · rw [if_pos hnil] at hchar
    cases hchar
  · rw [if_neg hnil] at hchar
    injection hchar with hg'
    have hTI : g.ticketIterations = buildTI [] (recsOf records g.tester) := by
      conv_lhs => rw [hg']
      rfl
    have h1 : (buildTI [] (recsOf records g.tester)).length =
        (((recsOf records g.tester).map Record.jiraTicket).foldl setAdd []).length := by
      have hk := keys_buildTI (recsOf records g.tester) []
      rw [show (([] : List (String × List String)).map Prod.fst) =
        ([] : List String) from rfl] at hk
      rw [← hk, List.length_map]
    show g.ticketIterations.length = _
    rw [hTI, h1, length_foldl_setAdd_toFinset]

/-- Witness for C6 at a concrete record list: Alice has three records over
two distinct tickets. -/
theorem unique_ticket_count_distinct_witness :
    (⟨"Alice",
      [⟨"Alice", "NR-100", "", "Not Started", "", ""⟩,
       ⟨"Alice", "NR-101", "2", "Failed", "BUG-1", ""⟩,
       ⟨"Alice", "NR-101", "3", "Failed", "", ""⟩],
      [("Not Started", 1), ("Failed", 2)],
      [("NR-100", ["1"]), ("NR-101", ["2", "3"])]⟩ : TesterGroup) ∈
      groupRecords
        [⟨"Alice", "NR-100", "", "Not Started", "", ""⟩,
         ⟨"Alice", "NR-101", "2", "Failed", "BUG-1", ""⟩,
         ⟨"Alice", "NR-101", "3", "Failed", "", ""⟩] ∧
    (testerData
        (statusList
          [⟨"Alice", "NR-100", "", "Not Started", "", ""⟩,
           ⟨"Alice", "NR-101", "2", "Failed", "BUG-1", ""⟩,
           ⟨"Alice", "NR-101", "3", "Failed", "", ""⟩])
        ⟨"Alice",
          [⟨"Alice", "NR-100", "", "Not Started", "", ""⟩,
           ⟨"Alice", "NR-101", "2", "Failed", "BUG-1", ""⟩,
           ⟨"Alice", "NR-101", "3", "Failed", "", ""⟩],
          [("Not Started", 1), ("Failed", 2)],
          [("NR-100", ["1"]), ("NR-101", ["2", "3"])]⟩).uniqueTicketCount =
      ((recsOf
          [⟨"Alice", "NR-100", "", "Not Started", "", ""⟩,
           ⟨"Alice", "NR-101", "2", "Failed", "BUG-1", ""⟩,
           ⟨"Alice", "NR-101", "3", "Failed", "", ""⟩] "Alice").map
        Record.jiraTicket).toFinset.card :=
  ⟨by decide,
   unique_ticket_count_distinct
     [⟨"Alice", "NR-100", "", "Not Started", "", ""⟩,
      ⟨"Alice", "NR-101", "2", "Failed", "BUG-1", ""⟩,
      ⟨"Alice", "NR-101", "3", "Failed", "", ""⟩] _ (by decide)⟩

/-- C5: for every tester and every ticket that tester has a record for, the
tester's `ticketDetails` entry for that ticket holds the number of distinct
iteration labels (the empty label replaced by "1") among that tester's
records of the ticket, which is at least 1. -/
theorem ticket_iteration_case_count (records : List Record) (t ticket : String)
    (r0 : Record) (hr0 : r0 ∈ records) (ht0 : jsTrim r0.tester = t) (ht : t ≠ "")
    (htk : r0.jiraTicket = ticket) :
    ∃ g ∈ groupRecords records, g.tester = t ∧
      lookupA (testerData (statusList records) g).ticketDetails ticket =
        some ((labsOf (recsOf records t) ticket).toFinset.card) ∧
      1 ≤ (labsOf (recsOf records t) ticket).toFinset.card := by
  have hr0' : r0 ∈ recsOf records t := by
    unfold recsOf
    rw [List.mem_filter]
    exact ⟨hr0, by simp [ht0]⟩
  have hnil : recsOf records t ≠ [] := fun e => by
    rw [e] at hr0'
    cases hr0'
  have hmem : labOf r0 ∈ labsOf (recsOf records t) ticket := by
    unfold labsOf
    exact List.mem_map_of_mem _ (List.mem_filter.mpr ⟨hr0', by simp [htk]⟩)
  have hlabs : labsOf (recsOf records t) ticket ≠ [] := fun e => by
    rw [e] at hmem
    cases hmem
  have hchar := lookupG_groupRecords records t ht
  rw [if_neg hnil] at hchar
  refine ⟨extendG ⟨t, [], [], []⟩ (recsOf records t),
    mem_of_lookupG _ _ _ hchar, rfl, ?_, ?_⟩
  · show lookupA (((buildTI [] (recsOf records t)).map
        (fun p => (p.1, p.2.length)))) ticket = _
    rw [lookupA_map_snd, lookupA_buildTI]
    show (if labsOf (recsOf records t) ticket = [] then none
        else some ((labsOf (recsOf records t) ticket).foldl setAdd [])).map
          List.length = _
    rw [if_neg hlabs]
    show some ((labsOf (recsOf records t) ticket).foldl setAdd []).length = _
    rw [length_foldl_setAdd_toFinset]
  · exact Finset.card_pos.mpr ⟨labOf r0, List.mem_toFinset.mpr hmem⟩

/-- Witness for C5: Alice's ticket "NR-101" with iteration labels "2" and
"3" has an iteration-case count of 2 ≥ 1. -/
theorem ticket_iteration_case_count_witness :
    (⟨"Alice", "NR-101", "2", "Failed", "BUG-1", ""⟩ : Record) ∈
      ([⟨"Alice", "NR-100", "", "Not Started", "", ""⟩,
        ⟨"Alice", "NR-101", "2", "Failed", "BUG-1", ""⟩,
        ⟨"Alice", "NR-101", "3", "Failed", "", ""⟩] : List Record) ∧
    ∃ g ∈ groupRecords
        [⟨"Alice", "NR-100", "", "Not Started", "", ""⟩,
         ⟨"Alice", "NR-101", "2", "Failed", "BUG-1", ""⟩,
         ⟨"Alice", "NR-101", "3", "Failed", "", ""⟩], g.tester = "Alice" ∧
      lookupA (testerData (statusList
          [⟨"Alice", "NR-100", "", "Not Started", "", ""⟩,
           ⟨"Alice", "NR-101", "2", "Failed", "BUG-1", ""⟩,
           ⟨"Alice", "NR-101", "3", "Failed", "", ""⟩]) g).ticketDetails "NR-101" =
        some ((labsOf (recsOf
            [⟨"Alice", "NR-100", "", "Not Started", "", ""⟩,
             ⟨"Alice", "NR-101", "2", "Failed", "BUG-1", ""⟩,
             ⟨"Alice", "NR-101", "3", "Failed", "", ""⟩] "Alice")
          "NR-101").toFinset.card) ∧
      1 ≤ (labsOf (recsOf
            [⟨"Alice", "NR-100", "", "Not Started", "", ""⟩,
             ⟨"Alice", "NR-101", "2", "Failed", "BUG-1", ""⟩,
             ⟨"Alice", "NR-101", "3", "Failed", "", ""⟩] "Alice")
          "NR-101").toFinset.card :=
  ⟨by decide,
   ticket_iteration_case_count
     [⟨"Alice", "NR-100", "", "Not Started", "", ""⟩,
      ⟨"Alice", "NR-101", "2", "Failed", "BUG-1", ""⟩,
      ⟨"Alice", "NR-101", "3", "Failed", "", ""⟩] "Alice" "NR-101"
     ⟨"Alice", "NR-101", "2", "Failed", "BUG-1", ""⟩
     (by decide) (by decide) (by decide) rfl⟩

/-! ### Index sheet parsing (C8) -/

theorem foldl_lastMatch_no_match (label : String) (l : List String) :
    ∀ (n : Nat) (dflt : Nat), (∀ cell ∈ l, ciContains cell label = false) →
      (l.enumFrom n).foldl
        (fun acc p => if ciContains p.2 label then p.1 else acc) dflt = dflt := by
  induction l with
  | nil =>
    intro n dflt _
    rfl
  | cons a t ih =>
    intro n dflt h
    show ((n, a) :: t.enumFrom (n + 1)).foldl
        (fun acc p => if ciContains p.2 label then p.1 else acc) dflt = dflt
    rw [List.foldl_cons]
    have ha : ciContains a label = false := h a (List.mem_cons_self _ _)
    rw [show (if ciContains a label then n else dflt) = dflt from by rw [ha]; rfl]
    exact ih (n + 1) dflt (fun cell hc => h cell (List.mem_cons_of_mem _ hc))

theorem lastMatchIdx_no_match (header : List String) (label : String) (dflt : Nat)
    (h : ∀ cell ∈ header, ciContains cell label = false) :
    lastMatchIdx header label dflt = dflt :=
  foldl_lastMatch_no_match label header 0 dflt h

theorem sum_bump (m : List (String × Nat)) (k : String) :
    ((bump m k).map Prod.snd).sum = (m.map Prod.snd).sum + 1 := by
  induction m with
  | nil => rfl
  | cons p rest ih =>
    obtain ⟨k', v⟩ := p
    show ((if k' = k then (k', v + 1) :: rest else (k', v) :: bump rest k).map
      Prod.snd).sum = _
    by_cases h : k' = k
    · rw [if_pos h]
      simp only [List.map_cons, List.sum_cons]
      omega
    · rw [if_neg h]
      simp only [List.map_cons, List.sum_cons, ih]
      omega

theorem lookupA_bump_self (m : List (String × Nat)) (k : String) :
    lookupA (bump m k) k = some ((lookupA m k).getD 0 + 1) := by
  induction m with
  | nil =>
    show (if k = k then some 1 else none) = some 1
    rw [if_pos rfl]
  | cons p rest ih =>
    obtain ⟨k', v⟩ := p
    show lookupA (if k' = k then (k', v + 1) :: rest else (k', v) :: bump rest k) k = _
    by_cases h : k' = k
    · rw [if_pos h]
      show (if k' = k then some (v + 1) else lookupA rest k) =
        some ((if k' = k then some v else lookupA rest k).getD 0 + 1)
      rw [if_pos h, if_pos h]
      rfl
    · rw [if_neg h]
      show (if k' = k then some v else lookupA (bump rest k) k) =
        some ((if k' = k then some v else lookupA rest k).getD 0 + 1)
      rw [if_neg h, if_neg h]
      exact ih

theorem lookupA_bump_other (m : List (String × Nat)) (k s : String) (h : s ≠ k) :
    lookupA (bump m k) s = lookupA m s := by
  induction m with
  | nil =>
    show (if k = s then some 1 else none) = none
    rw [if_neg (fun e => h e.symm)]
  | cons p rest ih =>
    obtain ⟨k', v⟩ := p
    show lookupA (if k' = k then (k', v + 1) :: rest else (k', v) :: bump rest k) s = _
    by_cases hk : k' = k
    · rw [if_pos hk]
      show (if k' = s then some (v + 1) else lookupA rest s) =
        (if k' = s then some v else lookupA rest s)
      rw [if_neg (hk ▸ fun e => h e.symm), if_neg (hk ▸ fun e => h e.symm)]
    · rw [if_neg hk]
      show (if k' = s then some v else lookupA (bump rest k) s) =
        (if k' = s then some v else lookupA rest s)
      by_cases hs : k' = s
      · rw [if_pos hs, if_pos hs]
      · rw [if_neg hs, if_neg hs]
        exact ih

theorem sum_foldl_tallyRow (sIdx : Nat) (rs : List (List String)) :
    ∀ m : List (String × Nat),
      ((rs.foldl (tallyRow sIdx) m).map Prod.snd).sum =
        (m.map Prod.snd).sum +
          (rs.filter
            (fun row => decide (jsTrim (getCell row (some sIdx)) ≠ ""))).length := by
  induction rs with
  | nil =>
    intro m
    simp
  | cons row rest ih =>
    intro m
    rw [List.foldl_cons, ih]
    simp only [tallyRow]
    by_cases h : jsTrim (getCell row (some sIdx)) ≠ ""
    · rw [if_pos h, sum_bump, List.filter_cons, if_pos (by simpa using h)]
      simp only [List.length_cons]
      omega
    · rw [if_neg h, List.filter_cons, if_neg (by simpa using h)]

theorem lookupA_foldl_tallyRow (sIdx : Nat) (rs : List (List String)) :
    ∀ (m : List (String × Nat)) (s : String),
      (lookupA (rs.foldl (tallyRow sIdx) m) s).getD 0 =
        (lookupA m s).getD 0 +
          (rs.filter (fun row =>
            decide (getCell row (some sIdx) = s ∧ jsTrim s ≠ ""))).length := by
  induction rs with
  | nil =>
    intro m s
    simp
  | cons row rest ih =>
    intro m s
    rw [List.foldl_cons, ih]
    simp only [tallyRow]
    by_cases hst : jsTrim (getCell row (some sIdx)) ≠ ""
    · rw [if_pos hst]
      by_cases hs : getCell row (some sIdx) = s
      · rw [hs, lookupA_bump_self, List.filter_cons,
          if_pos (by simp only [decide_eq_true_eq]; exact ⟨hs, hs ▸ hst⟩)]
        simp only [Option.getD_some, List.length_cons]
        omega
      · rw [lookupA_bump_other _ _ _ (fun e => hs e.symm), List.filter_cons,
          if_neg (by simp [hs])]
    · rw [if_neg hst]
      have hcond : ¬(getCell row (some sIdx) = s ∧ jsTrim s ≠ "") := by
        rintro ⟨rfl, hne⟩
        exact hst hne
      rw [List.filter_cons, if_neg (by simpa using hcond)]

/-- C8: with the index sheet present, each of the five columns falls back
to its fixed position (scenario 0, execution 1, description 2, story 3,
status 4) when no header cell matches its label; the body rows are exactly
the rows after row 0 with at least one non-empty cell, in row order; and
the status tally counts exactly the body rows whose status cell is
non-blank after trimming, keyed by the raw cell value. -/
theorem index_sheet_parsing (rows : List (List String)) :
    ((∀ cell ∈ (rows.get? 0).getD [], ciContains cell "test scenario" = false) →
      (parseIndex rows).testScenarioIdx = 0) ∧
    ((∀ cell ∈ (rows.get? 0).getD [], ciContains cell "test execution" = false) →
      (parseIndex rows).testExecutionIdx = 1) ∧
    ((∀ cell ∈ (rows.get? 0).getD [], ciContains cell "description" = false) →
      (parseIndex rows).descIdx = 2) ∧
    ((∀ cell ∈ (rows.get? 0).getD [], ciContains cell "test story" = false) →
      (parseIndex rows).testStoryIdx = 3) ∧
    ((∀ cell ∈ (rows.get? 0).getD [], ciContains cell "status" = false) →
      (parseIndex rows).statusIdx = 4) ∧
    ((parseIndex rows).bodyRows =
      (rows.drop 1).filter (fun row => decide (∃ c ∈ row, c ≠ ""))) ∧
    (parseIndex rows).bodyRows.Sublist (rows.drop 1) ∧
    (((parseIndex rows).statusCountsMap.map Prod.snd).sum =
      ((parseIndex rows).bodyRows.filter (fun row =>
        decide (jsTrim (getCell row (some (parseIndex rows).statusIdx)) ≠ ""))).length) ∧
    ∀ s : String,
      (lookupA (parseIndex rows).statusCountsMap s).getD 0 =
        ((parseIndex rows).bodyRows.filter (fun row =>
          decide (getCell row (some (parseIndex rows).statusIdx) = s ∧
            jsTrim s ≠ ""))).length := by
  have hbody : ((rows.drop 1).filter (fun row => row.any (fun c => c != ""))) =
      (rows.drop 1).filter (fun row => decide (∃ c ∈ row, c ≠ "")) := by
    apply List.filter_congr
    intro row _
    rw [← Bool.coe_iff_coe, List.any_eq_true, decide_eq_true_eq]
    constructor
    · rintro ⟨c, hc, hne⟩
      exact ⟨c, hc, by simpa using hne⟩
    · rintro ⟨c, hc, hne⟩
      exact ⟨c, hc, by simpa using hne⟩
  refine ⟨fun h => lastMatchIdx_no_match _ _ _ h,
    fun h => lastMatchIdx_no_match _ _ _ h,
    fun h => lastMatchIdx_no_match _ _ _ h,
    fun h => lastMatchIdx_no_match _ _ _ h,
    fun h => lastMatchIdx_no_match _ _ _ h,
    hbody, ?_, ?_, fun s => ?_⟩
  · show ((rows.drop 1).filter (fun row => row.any (fun c => c != ""))).Sublist
      (rows.drop 1)
    exact List.filter_sublist _
  · show ((((rows.drop 1).filter (fun row => row.any (fun c => c != ""))).foldl
      (tallyRow (lastMatchIdx ((rows.get? 0).getD []) "status" 4)) []).map
        Prod.snd).sum =
      (((rows.drop 1).filter (fun row => row.any (fun c => c != ""))).filter
        (fun row => decide (jsTrim (getCell row
          (some (lastMatchIdx ((rows.get? 0).getD []) "status" 4))) ≠ ""))).length
    rw [sum_foldl_tallyRow]
    simp
  · show (lookupA (((rows.drop 1).filter (fun row => row.any (fun c => c != ""))).foldl
      (tallyRow (lastMatchIdx ((rows.get? 0).getD []) "status" 4)) []) s).getD 0 =
      (((rows.drop 1).filter (fun row => row.any (fun c => c != ""))).filter
        (fun row => decide (getCell row
          (some (lastMatchIdx ((rows.get? 0).getD []) "status" 4)) = s ∧
            jsTrim s ≠ ""))).length
    rw [lookupA_foldl_tallyRow]
    simp [lookupA]

/-- Witness for C8 at a concrete index grid whose header matches none of
the five labels: all positional fallbacks apply, the all-blank row is
dropped, and the tally is empty. -/
theorem index_sheet_parsing_witness :
    (parseIndex [["A"], ["X", "Y"], [""]]).testScenarioIdx = 0 ∧
    (parseIndex [["A"], ["X", "Y"], [""]]).testExecutionIdx = 1 ∧
    (parseIndex [["A"], ["X", "Y"], [""]]).descIdx = 2 ∧
    (parseIndex [["A"], ["X", "Y"], [""]]).testStoryIdx = 3 ∧
    (parseIndex [["A"], ["X", "Y"], [""]]).statusIdx = 4 ∧
    (parseIndex [["A"], ["X", "Y"], [""]]).bodyRows =
      (([["A"], ["X", "Y"], [""]] : List (List String)).drop 1).filter
        (fun row => decide (∃ c ∈ row, c ≠ "")) ∧
    (lookupA (parseIndex [["A"], ["X", "Y"], [""]]).statusCountsMap "Passed").getD 0 =
      ((parseIndex [["A"], ["X", "Y"], [""]]).bodyRows.filter (fun row =>
        decide (getCell row (some (parseIndex [["A"], ["X", "Y"], [""]]).statusIdx) =
          "Passed" ∧ jsTrim ("Passed" : String) ≠ ""))).length :=
  ⟨(index_sheet_parsing _).1 (by decide),
   (index_sheet_parsing _).2.1 (by decide),
   (index_sheet_parsing _).2.2.1 (by decide),
   (index_sheet_parsing _).2.2.2.1 (by decide),
   (index_sheet_parsing _).2.2.2.2.1 (by decide),
   (index_sheet_parsing _).2.2.2.2.2.1,
   (index_sheet_parsing _).2.2.2.2.2.2.2.2 "Passed"⟩

/-! ### Global status percentages (C9) -/

theorem sum_map_percent (T : ℚ) (counts : List Nat) :
    (counts.map (fun c : Nat => ((c : ℚ) / T) * 100)).sum =
      ((counts.sum : Nat) : ℚ) / T * 100 := by
  induction counts with
  | nil => simp
  | cons c t ih =>
    rw [List.map_cons, List.sum_cons, ih, List.sum_cons, Nat.cast_add]
    ring

theorem sum_abs_le (l : List Nat) (f g : Nat → ℚ) (ε : ℚ) (_hε : 0 ≤ ε)
    (h : ∀ c ∈ l, |f c - g c| ≤ ε) :
    |(l.map f).sum - (l.map g).sum| ≤ l.length * ε := by
  induction l with
  | nil => simp
  | cons c t ih =>
    have h1 := h c (List.mem_cons_self _ _)
    have h2 := ih (fun x hx => h x (List.mem_cons_of_mem _ hx))
    simp only [List.map_cons, List.sum_cons, List.length_cons]
    have habs : |f c + (t.map f).sum - (g c + (t.map g).sum)| ≤
        |f c - g c| + |(t.map f).sum - (t.map g).sum| := by
      have harr : f c + (t.map f).sum - (g c + (t.map g).sum) =
          (f c - g c) + ((t.map f).sum - (t.map g).sum) := by ring
      rw [harr]
      exact abs_add _ _
    refine le_trans habs (le_trans (add_le_add h1 h2) (le_of_eq ?_))
    push_cast
    ring

theorem roundTenth_close (q : ℚ) : |roundTenth q - q| ≤ 1 / 20 := by
  unfold roundTenth
  have h := abs_sub_round (10 * q)
  rw [abs_sub_comm] at h
  have harr : ((round (10 * q) : ℤ) : ℚ) / 10 - q = ((round (10 * q) : ℤ) - 10 * q) / 10 := by
    ring
  rw [harr, abs_div]
  rw [show |(10 : ℚ)| = 10 from by norm_num]
  calc |((round (10 * q) : ℤ) : ℚ) - 10 * q| / 10 ≤ (1 / 2) / 10 :=
        (div_le_div_iff_of_pos_right (by norm_num : (0 : ℚ) < 10)).mpr h
    _ = 1 / 20 := by norm_num

/-- C9: each displayed global status percentage is the exact
count/total×100 rounded to one decimal place when the total is positive
(within 1/20 of the exact value, with one decimal digit), the exact
percentages sum to exactly 100, the displayed ones sum to 100 within
rounding, and every percentage is the literal 0 when the total is zero. -/
theorem global_percentages (records : List Record) :
    (gTotal records = 0 →
      ∀ c ∈ gCounts records, percentOneDecimal c (gTotal records) = 0) ∧
    (0 < gTotal records →
      ((gCounts records).map
        (fun c : Nat => ((c : ℚ) / (gTotal records : ℚ)) * 100)).sum = 100 ∧
      (∀ c ∈ gCounts records,
        (∃ z : ℤ, percentOneDecimal c (gTotal records) = (z : ℚ) / 10) ∧
        |percentOneDecimal c (gTotal records) -
          ((c : ℚ) / (gTotal records : ℚ)) * 100| ≤ 1 / 20) ∧
      |((gCounts records).map
        (fun c : Nat => percentOneDecimal c (gTotal records))).sum - 100| ≤
        (gCounts records).length * (1 / 20)) := by
  constructor
  · intro h c _
    rw [h]
    unfold percentOneDecimal
    rw [if_neg (lt_irrefl 0)]
  · intro h
    have hne : ((gTotal records : Nat) : ℚ) ≠ 0 :=
      Nat.cast_ne_zero.mpr (Nat.pos_iff_ne_zero.mp h)
    have hsum : ((gCounts records).map
        (fun c : Nat => ((c : ℚ) / (gTotal records : ℚ)) * 100)).sum = 100 := by
      rw [sum_map_percent]
      rw [show ((gCounts records).sum : Nat) = gTotal records from rfl]
      rw [div_self hne]
      norm_num
    refine ⟨hsum, fun c _ =>
      ⟨⟨round (10 * (((c : ℚ) / (gTotal records : ℚ)) * 100)), ?_⟩, ?_⟩, ?_⟩
    · unfold percentOneDecimal roundTenth
      rw [if_pos h]
    · unfold percentOneDecimal
      rw [if_pos h]
      exact roundTenth_close _
    · have hb := sum_abs_le (gCounts records)
        (fun c : Nat => percentOneDecimal c (gTotal records))
        (fun c : Nat => ((c : ℚ) / (gTotal records : ℚ)) * 100) (1 / 20) (by norm_num)
        (fun c _ => by
          show |percentOneDecimal c (gTotal records) -
            ((c : ℚ) / (gTotal records : ℚ)) * 100| ≤ 1 / 20
          unfold percentOneDecimal
          rw [if_pos h]
          exact roundTenth_close _)
      rw [hsum] at hb
      exact hb

/-- Witness for C9: the zero-total branch at no records, the positive
branch at one "Failed" record. -/
theorem global_percentages_witness :
    gTotal ([] : List Record) = 0 ∧
    (∀ c ∈ gCounts ([] : List Record), percentOneDecimal c (gTotal []) = 0) ∧
    0 < gTotal [⟨"Alice", "NR-100", "", "Failed", "", ""⟩] ∧
    |((gCounts [⟨"Alice", "NR-100", "", "Failed", "", ""⟩]).map
      (fun c : Nat => percentOneDecimal c
        (gTotal [⟨"Alice", "NR-100", "", "Failed", "", ""⟩]))).sum - 100| ≤
      (gCounts [⟨"Alice", "NR-100", "", "Failed", "", ""⟩]).length * (1 / 20) :=
  ⟨by decide, (global_percentages []).1 (by decide), by decide,
   ((global_percentages [⟨"Alice", "NR-100", "", "Failed", "", ""⟩]).2 (by decide)).2.2⟩

end Report
